import Mathlib

/-!
Verification of the `logging` package of the dgtk repository: a multi-format
syslog line parsing engine (generic envelope, Unicorn, Nginx, HAProxy).

Strings are modelled as `List Char` (`GoStr`), Go `float64` values that occur
in the claims as exact decimal rationals (`ℚ`; no arithmetic is performed on
them, they are only parsed and stored, so the decimal value determines the
observable behaviour), Go `int`/`int64` as `ℤ` (the parsers under study never
overflow at the inputs the claims speak about; range clamping of
`strconv.ParseInt` is not modelled).  Go maps are modelled as association
lists with insert-or-overwrite, pointer-receiver methods as state-passing
functions returning the updated record together with the `error` result.
-/

set_option maxHeartbeats 1000000

namespace Dgtk

abbrev GoStr := List Char

/-- Whitespace test used by Go's `strings.Fields` (`unicode.IsSpace`). -/
def isGoSpace (c : Char) : Bool :=
  c = ' ' ∨ c = '\t' ∨ c = '\n' ∨ c = '\x0b' ∨ c = '\x0c' ∨ c = '\r' ∨
  c = '\u0085' ∨ c = ' ' ∨ c = ' ' ∨
  (' ' ≤ c ∧ c ≤ ' ') ∨ c = ' ' ∨ c = ' ' ∨
  c = ' ' ∨ c = ' ' ∨ c = '　'

/-- Worker for `goFields`: `acc` holds the (reversed) characters of the word
currently being read. -/
def fieldsAux : List Char → List Char → List GoStr
  | [], acc => if acc = [] then [] else [acc.reverse]
  | c :: cs, acc =>
    if isGoSpace c then
      (if acc = [] then fieldsAux cs [] else acc.reverse :: fieldsAux cs [])
    else fieldsAux cs (c :: acc)

/-- Go `strings.Fields`: split around runs of whitespace. -/
def goFields (s : GoStr) : List GoStr := fieldsAux s []

/-- Go `strings.SplitN(s, sep, 2)` for a one-character separator, returning
`some (before, after)` when the separator occurs (the 2-part case) and
`none` when it does not (the 1-part case). -/
def splitOnFirst (sep : Char) (s : GoStr) : Option (GoStr × GoStr) :=
  if sep ∈ s then some (s.takeWhile (· ≠ sep), (s.dropWhile (· ≠ sep)).drop 1)
  else none

/-- Go `strings.Split(s, sep)` for a one-character separator. -/
def goSplit (sep : Char) (s : GoStr) : List GoStr :=
  s.foldr
    (fun c acc =>
      if c = sep then [] :: acc
      else
        match acc with
        | a :: rest => (c :: a) :: rest
        | [] => [[c]])
    [[]]

/-- Numeric value of a digit string. -/
def digitsVal (ds : GoStr) : Nat :=
  ds.foldl (fun a c => a * 10 + (c.toNat - '0'.toNat)) 0

/-- Go `strconv.ParseInt(s, 10, 64)` / `strconv.Atoi` (syntax only; the
claims never reach the 64-bit range limits, so overflow clamping is not
modelled). -/
def goParseInt (s : GoStr) : Option Int :=
  let p := match s with
    | '+' :: r => (false, r)
    | '-' :: r => (true, r)
    | _ => (false, s)
  if p.2 = [] ∨ ¬ p.2.all Char.isDigit then none
  else some (if p.1 then -(digitsVal p.2 : Int) else (digitsVal p.2 : Int))

/-- Exponent part of a Go float literal: `(e|E)[+-]?digits`. -/
def readExp : GoStr → Option (Int × GoStr)
  | c :: rest =>
    if c = 'e' ∨ c = 'E' then
      let p := match rest with
        | '+' :: r => (false, r)
        | '-' :: r => (true, r)
        | _ => (false, rest)
      let ds := p.2.takeWhile Char.isDigit
      if ds = [] then none
      else some ((if p.1 then -(digitsVal ds : Int) else (digitsVal ds : Int)),
                 p.2.drop ds.length)
    else none
  | [] => none

/-- Go `strconv.ParseFloat(s, 64)`, with the parsed decimal kept exactly as a
rational: `± mantissa · 10^exp / 10^(fraction length)`, built with `mkRat`.
`Inf`/`NaN`/hex-float forms (not representable in `ℚ`, never hit by the
claims) are not modelled. -/
def goParseFloat (s : GoStr) : Option ℚ :=
  let p := match s with
    | '+' :: r => (true, r)
    | '-' :: r => (false, r)
    | _ => (true, s)
  let ip := p.2.takeWhile Char.isDigit
  let r1 := p.2.drop ip.length
  let fr : GoStr × GoStr := match r1 with
    | '.' :: r => (r.takeWhile Char.isDigit, r.drop (r.takeWhile Char.isDigit).length)
    | _ => ([], r1)
  if ip = [] ∧ fr.1 = [] then none
  else
    let m := digitsVal (ip ++ fr.1)
    let mkVal : Int → ℚ := fun e =>
      let mag : Int := ((m * 10 ^ e.toNat : Nat) : Int)
      mkRat (if p.1 then mag else -mag) (10 ^ (fr.1.length + (-e).toNat))
    if fr.2 = [] then some (mkVal 0)
    else
      match readExp fr.2 with
      | some (e, []) => some (mkVal e)
      | _ => none

/-- A parsed Go `time.Time` as produced by `time.Parse` on the two layouts of
the source (date/time components plus a fixed UTC offset in minutes). -/
structure GoTime where
  year : Nat
  month : Nat
  day : Nat
  hour : Nat
  minute : Nat
  second : Nat
  micro : Nat
  offMin : Int
deriving DecidableEq, Repr

/-- The zero `time.Time` (January 1, year 1, 00:00:00 UTC). -/
def GoTime.zero : GoTime := ⟨1, 1, 1, 0, 0, 0, 0, 0⟩

/-- Read exactly `n` digits. -/
def readNDigits (n : Nat) (s : GoStr) : Option (Nat × GoStr) :=
  if (s.take n).length = n ∧ (s.take n).all Char.isDigit then
    some (digitsVal (s.take n), s.drop n)
  else none

/-- Read a literal character. -/
def readLit (c : Char) : GoStr → Option GoStr
  | x :: rest => if x = c then some rest else none
  | [] => none

/-- Go's non-fixed two-digit number read (layout element `15`): two digits
when two are available, else one. -/
def readNum2Flex : GoStr → Option (Nat × GoStr)
  | a :: b :: rest =>
    if a.isDigit then
      if b.isDigit then some (digitsVal [a, b], rest)
      else some (digitsVal [a], b :: rest)
    else none
  | [a] => if a.isDigit then some (digitsVal [a], []) else none
  | [] => none

/-- Numeric colon timezone (layout element `-07:00`): sign, two digits, a
colon, two digits; yields the offset in minutes. -/
def readOffset (s : GoStr) : Option (Int × GoStr) :=
  match s with
  | c :: rest =>
    if c = '+' ∨ c = '-' then do
      let (hh, r1) ← readNDigits 2 rest
      let r2 ← readLit ':' r1
      let (mm, r3) ← readNDigits 2 r2
      let mins : Int := (hh : Int) * 60 + (mm : Int)
      some (if c = '-' then -mins else mins, r3)
    else none
  | [] => none

/-- Modelled from Go's `time.Parse` (standard library, not part of src/) at
the two fixed layouts `2006-01-02T15:04:05.000000-07:00` (with `withMicro`)
and `2006-01-02T15:04:05-07:00` (without): four-digit year, two-digit month
and day, flexible one/two-digit hour, two-digit minute and second, an
optional mandatory six-digit microsecond fraction, and a signed `hh:mm`
offset; the whole token must be consumed.  Range validation is simplified to
month 1–12, day 1–31, hour ≤ 23, minute ≤ 59, second ≤ 59 (no per-month day
count); no claim depends on those edge dates. -/
def parseTimeCore (withMicro : Bool) (s : GoStr) : Option GoTime := do
  let (y, s) ← readNDigits 4 s
  let s ← readLit '-' s
  let (mo, s) ← readNDigits 2 s
  let s ← readLit '-' s
  let (d, s) ← readNDigits 2 s
  let s ← readLit 'T' s
  let (h, s) ← readNum2Flex s
  let s ← readLit ':' s
  let (mi, s) ← readNDigits 2 s
  let s ← readLit ':' s
  let (sec, s) ← readNDigits 2 s
  let (us, s) ←
    if withMicro then do
      let s ← readLit '.' s
      readNDigits 6 s
    else pure ((0 : Nat), s)
  let (off, s) ← readOffset s
  if s = [] ∧ 1 ≤ mo ∧ mo ≤ 12 ∧ 1 ≤ d ∧ d ≤ 31 ∧ h ≤ 23 ∧ mi ≤ 59 ∧ sec ≤ 59 then
    some ⟨y, mo, d, h, mi, sec, us, off⟩
  else none

/-- `time.Parse(timeLayout, ·)`: the fractional-microsecond + UTC-offset
layout. -/
def parseTimeMicro (s : GoStr) : Option GoTime := parseTimeCore true s

/-- `time.Parse(timeLayoutWithoutMicro, ·)`: the whole-second + UTC-offset
layout. -/
def parseTimeNoMicro (s : GoStr) : Option GoTime := parseTimeCore false s

/-- A scalar stored in the tag map (`map[string]interface{}` holding
`string`, `int64` or `float64` values in the source). -/
inductive TagValue where
  | str (s : GoStr)
  | int (i : Int)
  | float (q : ℚ)
deriving DecidableEq, Repr

/-- Go map assignment `m[k] = v`: overwrite in place or append. -/
def mapInsert (m : List (GoStr × TagValue)) (k : GoStr) (v : TagValue) :
    List (GoStr × TagValue) :=
  if m.any (fun p => p.1 = k) then
    m.map (fun p => if p.1 = k then (k, v) else p)
  else m ++ [(k, v)]

/-- Go map read `m[k]`. -/
def mapLookup (m : List (GoStr × TagValue)) (k : GoStr) : Option TagValue :=
  (m.find? (fun p => p.1 = k)).map (fun p => p.2)

/-- `removeQuotes`: strip one surrounding double-quote pair when both are
present.  (Go slices `raw[1:len-1]`, which would panic on the one-character
string `"`; here that case yields `[]`; no claim reaches it.) -/
def removeQuotes (raw : GoStr) : GoStr :=
  if raw.take 1 = ['"'] ∧ raw ≠ [] ∧ raw.getLast? = some '"' then
    (raw.drop 1).dropLast
  else raw

/-- `validKeyRegexp` = `(?i)^[a-z]+$`: one or more ASCII letters. -/
def validKeyMatch (s : GoStr) : Bool :=
  ¬ s.isEmpty ∧ s.all Char.isAlpha

/-- `callsRegexp` = `^([0-9.]+)\/([0-9]+)$`: the two captured groups when the
whole string matches.  The character class of group 1 excludes `/`, so the
greedy group is exactly the maximal `[0-9.]` run. -/
def callsMatch (s : GoStr) : Option (GoStr × GoStr) :=
  let a := s.takeWhile (fun c => c.isDigit ∨ c = '.')
  if a = [] then none
  else
    match s.drop a.length with
    | '/' :: b => if b ≠ [] ∧ b.all Char.isDigit then some (a, b) else none
    | _ => none

/-- `parseTagValue`: integer, else float, else quoted-stripped string. -/
def parseTagValue (raw : GoStr) : TagValue :=
  match goParseInt raw with
  | some i => .int i
  | none =>
    match goParseFloat raw with
    | some f => .float f
    | none => .str (removeQuotes raw)

/-- The mutable locals of the `parseTags` loop. -/
structure TagsState where
  inQuotes : Bool
  currentKey : GoStr
  valueParts : List GoStr
  t : List (GoStr × TagValue)
deriving Repr

/-- One iteration of the `parseTags` loop over a whitespace token. -/
def parseTagsStep (st : TagsState) (field : GoStr) : TagsState :=
  if st.inQuotes then
    let vp := st.valueParts ++ [field]
    if ('"' : Char) ∈ field then
      let v := (vp.intersperse [' ']).foldr (· ++ ·) []
      { st with inQuotes := false, valueParts := vp,
                t := mapInsert st.t st.currentKey (.str (removeQuotes v)) }
    else { st with valueParts := vp }
  else
    match splitOnFirst '=' field with
    | some (k, value) =>
      if validKeyMatch k then
        if ('"' : Char) ∈ value ∧ value.getLast? ≠ some '"' then
          { st with currentKey := k, valueParts := [value], inQuotes := true }
        else if value ≠ ['-'] then
          match callsMatch value with
          | some (m1, m2) =>
            match goParseFloat m1 with
            | some totalTime =>
              match goParseInt m2 with
              | some calls =>
                { st with currentKey := k,
                          t := mapInsert
                                 (mapInsert st.t (k ++ "_time".data) (.float totalTime))
                                 (k ++ "_calls".data) (.int calls) }
              | none => { st with currentKey := k }
            | none => { st with currentKey := k }
          | none =>
            { st with currentKey := [],
                      t := mapInsert st.t k (parseTagValue value) }
        else { st with currentKey := k }
      else st
    | none => st

/-- `parseTags`: the two-state key=value tokenizer over the whitespace
tokens of `raw`. -/
def parseTags (raw : GoStr) : List (GoStr × TagValue) :=
  ((goFields raw).foldl parseTagsStep ⟨false, [], [], []⟩).t

/-- Timestamp or tag errors surfaced by the parsers; `unsupportedTag` carries
the observed tag string (Go: `fmt.Errorf("tag %q not supported", ...)` /
`fmt.Errorf("tag was %s", ...)`). -/
inductive GoError where
  | timestampFormat (tok : GoStr)
  | unsupportedTag (tag : GoStr)
deriving DecidableEq, Repr

/-- `SyslogLine`: the envelope record. -/
structure SyslogLine where
  Raw : GoStr := []
  Time : GoTime := GoTime.zero
  Host : GoStr := []
  Tag : GoStr := []
  Severity : GoStr := []
  Pid : Int := 0
  fields : List GoStr := []
  parsed : Bool := false
  tags : List (GoStr × TagValue) := []
  tagsParsed : Bool := false
deriving DecidableEq, Repr

/-- `SyslogLine.Tags`: compute the tag map when `tagsParsed` is unset and
return it.  (The source never sets `tagsParsed`.) -/
def SyslogLine.Tags (line : SyslogLine) : SyslogLine × List (GoStr × TagValue) :=
  let line := if !line.tagsParsed then { line with tags := parseTags line.Raw } else line
  (line, line.tags)

/-- `TagRegexp.FindStringSubmatch` for `(.*?)\[(\d*)\]`: with the lazy
leading group the match starts at position 0 and ends at the first `[` whose
maximal following digit run is terminated by `]`; returns the text before
that `[` and the digit run.  Worker carrying the reversed scanned text. -/
def tagFindAux : GoStr → GoStr → Option (GoStr × GoStr)
  | [], _ => none
  | c :: cs, acc =>
    if c = '[' then
      let ds := cs.takeWhile Char.isDigit
      match cs.drop ds.length with
      | ']' :: _ => some (acc.reverse, ds)
      | _ => tagFindAux cs (c :: acc)
    else tagFindAux cs (c :: acc)

/-- Search of `TagRegexp` in a raw tag token. -/
def tagRegexpFind (raw : GoStr) : Option (GoStr × GoStr) := tagFindAux raw []

/-- `splitTagAndPid`: `name[digits]` decomposition, else strip one trailing
colon.  (Go indexes `tag[len(tag)-1]`, panicking on the empty string; the
callers only pass nonempty whitespace tokens; here the empty string is
returned unchanged.) -/
def splitTagAndPid (raw : GoStr) : GoStr × Int :=
  match tagRegexpFind raw with
  | some (t, ds) => (t, (goParseInt ds).getD 0)
  | none => (if raw.getLast? = some ':' then raw.dropLast else raw, 0)

/-- `splitTagAndSeverity`: split on `.`; tag and severity exactly when the
split has two parts. -/
def splitTagAndSeverity (raw : GoStr) : GoStr × GoStr :=
  match goSplit '.' raw with
  | [a, b] => (a, b)
  | _ => (raw, [])

/-- `parseTag`: pid first, then severity. -/
def parseTag (raw : GoStr) : GoStr × GoStr × Int :=
  let (tagAndSeverity, pid) := splitTagAndPid raw
  let (tag, severity) := splitTagAndSeverity tagAndSeverity
  (tag, severity, pid)

/-- `SyslogLine.Parse`: the envelope parse, state-passing form of the Go
pointer-receiver method.  On the timestamp error path the failed
`time.Parse` has already assigned the zero `time.Time`. -/
def SyslogLine.Parse (line : SyslogLine) (raw : GoStr) : SyslogLine × Option GoError :=
  if line.parsed then (line, none)
  else
    let line := { line with Raw := raw, fields := goFields raw }
    match line.fields with
    | f0 :: f1 :: f2 :: _ =>
      match parseTimeMicro f0 with
      | some t =>
        let (tag, severity, pid) := parseTag f2
        ({ line with Time := t, Host := f1, Tag := tag, Severity := severity,
                     Pid := pid, parsed := true }, none)
      | none =>
        match parseTimeNoMicro f0 with
        | some t =>
          let (tag, severity, pid) := parseTag f2
          ({ line with Time := t, Host := f1, Tag := tag, Severity := severity,
                       Pid := pid, parsed := true }, none)
        | none => ({ line with Time := GoTime.zero }, some (.timestampFormat f0))
    | _ => ({ line with parsed := true }, none)

/-- `UUIDRegexp.FindStringSubmatch` for `([a-z0-9\-]{36})`: leftmost run of
36 characters from the class; the submatch equals the match. -/
def uuidFind : GoStr → Option GoStr
  | [] => none
  | c :: cs =>
    if ((c :: cs).take 36).length = 36 ∧
       ((c :: cs).take 36).all (fun x => x.isDigit ∨ ('a' ≤ x ∧ x ≤ 'z') ∨ x = '-') then
      some ((c :: cs).take 36)
    else uuidFind cs

/-- `UnicornLine`: envelope plus the request UUID. -/
structure UnicornLine where
  UUID : GoStr := []
  syslogLine : SyslogLine := {}
deriving DecidableEq, Repr

/-- `UnicornLine.Parse`: envelope, tag check, then a UUID scan of the raw
argument when the (stored) token sequence has at least four entries. -/
def UnicornLine.Parse (line : UnicornLine) (raw : GoStr) : UnicornLine × Option GoError :=
  let (s, e) := line.syslogLine.Parse raw
  let line := { line with syslogLine := s }
  match e with
  | some err => (line, some err)
  | none =>
    if s.Tag ≠ "unicorn".data then (line, some (.unsupportedTag s.Tag))
    else if 4 ≤ s.fields.length then
      match uuidFind raw with
      | some u => ({ line with UUID := u }, none)
      | none => (line, none)
    else (line, none)

/-- `NginxLine`: envelope (held by pointer in the source, hence `Option`)
plus the generic and quoted body fields. -/
structure NginxLine where
  syslogLine : Option SyslogLine := none
  Method : GoStr := []
  Status : GoStr := []
  Length : Int := 0
  TotalTime : ℚ := 0
  UnicornTime : ℚ := 0
  HttpHost : GoStr := []
  UserAgentName : GoStr := []
  Uri : GoStr := []
  Referer : GoStr := []
deriving DecidableEq, Repr

/-- One token of the generic `key=value` pass of `NginxLine.Parse`. -/
def nginxApplyField (line : NginxLine) (field : GoStr) : NginxLine :=
  match splitOnFirst '=' field with
  | some (key, value) =>
    if key = "method".data then { line with Method := value }
    else if key = "status".data then { line with Status := value }
    else if key = "host".data then { line with HttpHost := value }
    else if key = "length".data then { line with Length := (goParseInt value).getD 0 }
    else if key = "total".data then { line with TotalTime := (goParseFloat value).getD 0 }
    else if key = "unicorn_time".data then
      { line with UnicornTime := (goParseFloat value).getD 0 }
    else line
  | none => line

/-- Does `l` begin with one of the quoted-pass openings `ua="`, `uri="`,
`ref="` (the alternation of `quotesRegexp`)?  Returns the key. -/
def quoteKeyAt (l : GoStr) : Option GoStr :=
  if l.take 4 = "ua=\"".data then some "ua".data
  else if l.take 5 = "uri=\"".data then some "uri".data
  else if l.take 5 = "ref=\"".data then some "ref".data
  else none

/-- Worker for `findQuotes`; the fuel (initially the string length, always at
least the length of the remaining string) only serves termination. -/
def findQuotesAux : Nat → GoStr → List (GoStr × GoStr)
  | 0, _ => []
  | _, [] => []
  | fuel + 1, c :: cs =>
    match quoteKeyAt (c :: cs) with
    | some key =>
      let rest := (c :: cs).drop (key.length + 2)
      if ('"' : Char) ∈ rest then
        let content := rest.takeWhile (· ≠ '"')
        (key, content) :: findQuotesAux fuel (rest.drop (content.length + 1))
      else findQuotesAux fuel cs
    | none => findQuotesAux fuel cs

/-- `quotesRegexp.FindAllStringSubmatch` for `(ua|uri|ref)="(.*?)"`: scan
left to right; at an opening with a closing quote available, capture the
lazy (shortest) body and resume after the closing quote, else advance one
character. -/
def findQuotes (l : GoStr) : List (GoStr × GoStr) := findQuotesAux l.length l

/-- The assignment loop over the `quotesRegexp` matches. -/
def applyQuotes (line : NginxLine) : List (GoStr × GoStr) → NginxLine
  | [] => line
  | (k, v) :: rest =>
    applyQuotes
      (if k = "ua".data then { line with UserAgentName := v }
       else if k = "uri".data then { line with Uri := v }
       else if k = "ref".data then { line with Referer := v }
       else line) rest

/-- `NginxLine.Parse`: allocate the envelope if absent, parse it, check the
tag, run the generic pass over the stored tokens, then the quoted pass over
the raw argument. -/
def NginxLine.Parse (line : NginxLine) (raw : GoStr) : NginxLine × Option GoError :=
  let s0 := line.syslogLine.getD {}
  let (s, e) := s0.Parse raw
  let line := { line with syslogLine := some s }
  match e with
  | some err => (line, some err)
  | none =>
    if s.Tag ≠ "ssl_endpoint".data ∧ s.Tag ≠ "nginx".data then
      (line, some (.unsupportedTag s.Tag))
    else
      let line := s.fields.foldl nginxApplyField line
      (applyQuotes line (findQuotes raw), none)

/-- `HAProxyLine`: envelope plus the positional body fields. -/
structure HAProxyLine where
  syslogLine : SyslogLine := {}
  Frontend : GoStr := []
  Backend : GoStr := []
  BackendHost : GoStr := []
  BackendImageId : GoStr := []
  BackendContainerId : GoStr := []
  Status : GoStr := []
  Length : Int := 0
  ClientRequestTime : Int := 0
  ConnectionQueueTime : Int := 0
  TcpConnectTime : Int := 0
  ServerResponseTime : Int := 0
  SessionDurationTime : Int := 0
  ActiveConnections : Int := 0
  FrontendConnections : Int := 0
  BackendConnectons : Int := 0
  ServerConnections : Int := 0
  Retries : Int := 0
  ServerQueue : Int := 0
  BackendQueue : Int := 0
  Method : GoStr := []
  Uri : GoStr := []
deriving DecidableEq, Repr

/-- Token 6 of the HAProxy body: `backend/host:image:container`. -/
def hapBackend (line : HAProxyLine) (tok : GoStr) : HAProxyLine :=
  match splitOnFirst '/' tok with
  | some (b, backendContainer) =>
    let line := { line with Backend := b }
    match goSplit ':' backendContainer with
    | [h, im, co] =>
      { line with BackendHost := h, BackendImageId := im, BackendContainerId := co }
    | _ => line
  | none => line

/-- Token 7 of the HAProxy body: the five `/`-joined timing phases. -/
def hapTimes (line : HAProxyLine) (tok : GoStr) : HAProxyLine :=
  match goSplit '/' tok with
  | [a, b, c, d, e] =>
    { line with ClientRequestTime := (goParseInt a).getD 0,
                ConnectionQueueTime := (goParseInt b).getD 0,
                TcpConnectTime := (goParseInt c).getD 0,
                ServerResponseTime := (goParseInt d).getD 0,
                SessionDurationTime := (goParseInt e).getD 0 }
  | _ => line

/-- Token 13 of the HAProxy body: the five `/`-joined connection counters. -/
def hapConns (line : HAProxyLine) (tok : GoStr) : HAProxyLine :=
  match goSplit '/' tok with
  | [a, b, c, d, e] =>
    { line with ActiveConnections := (goParseInt a).getD 0,
                FrontendConnections := (goParseInt b).getD 0,
                BackendConnectons := (goParseInt c).getD 0,
                ServerConnections := (goParseInt d).getD 0,
                Retries := (goParseInt e).getD 0 }
  | _ => line

/-- Token 14 of the HAProxy body: the two `/`-joined queue depths. -/
def hapQueues (line : HAProxyLine) (tok : GoStr) : HAProxyLine :=
  match goSplit '/' tok with
  | [a, b] =>
    { line with ServerQueue := (goParseInt a).getD 0, BackendQueue := (goParseInt b).getD 0 }
  | _ => line

/-- Positional body extraction of `HAProxyLine.Parse`, run only when the
stored token sequence has more than 16 entries. -/
def haproxyBody (line : HAProxyLine) : HAProxyLine :=
  match line.syslogLine.fields with
  | _f0 :: _f1 :: _f2 :: _f3 :: _f4 :: f5 :: f6 :: f7 :: f8 :: f9 ::
      _f10 :: _f11 :: _f12 :: f13 :: f14 :: f15 :: f16 :: _rest =>
    let line := { line with Frontend := f5 }
    let line := hapBackend line f6
    let line := hapTimes line f7
    let line := { line with Status := f8, Length := (goParseInt f9).getD 0 }
    let line := hapConns line f13
    let line := hapQueues line f14
    { line with Method := f15.drop 1, Uri := f16 }
  | _ => line

/-- `HAProxyLine.Parse`: envelope, tag check, then the positional body. -/
def HAProxyLine.Parse (line : HAProxyLine) (raw : GoStr) : HAProxyLine × Option GoError :=
  let (s, e) := line.syslogLine.Parse raw
  let line := { line with syslogLine := s }
  match e with
  | some err => (line, some err)
  | none =>
    if s.Tag ≠ "haproxy".data then (line, some (.unsupportedTag s.Tag))
    else (haproxyBody line, none)

/-- Keep the first option when present, else fall back. -/
def orKeep {α : Type} (o c : Option α) : Option α :=
  match o with
  | some w => some w
  | none => c

/-- The value a single token contributes for a given key. -/
def tokVal (key f : GoStr) : Option GoStr :=
  match splitOnFirst '=' f with
  | some (k, v) => if k = key then some v else none
  | none => none

/-- Value of the last `key=value` token for a given key in a token list
(`some` iff the key occurs); later tokens take priority. -/
def lastVal (key : GoStr) : List GoStr → Option GoStr
  | [] => none
  | f :: fs => orKeep (lastVal key fs) (tokVal key f)

/-- The `k`-th part of `tok` split at `sep` when the split has exactly `n`
parts, else the old value (the conditional positional assignment shape of
the HAProxy body). -/
def splitVal (sep : Char) (n k : Nat) (tok : GoStr) (old : GoStr) : GoStr :=
  if (goSplit sep tok).length = n then (goSplit sep tok).getD k [] else old

/-- Like `splitVal` but with the part coerced by best-effort `Atoi`. -/
def splitIntVal (sep : Char) (n k : Nat) (tok : GoStr) (old : Int) : Int :=
  if (goSplit sep tok).length = n then (goParseInt ((goSplit sep tok).getD k [])).getD 0
  else old

/-- The `Backend` value of HAProxy token 6: the part before the first `/`
when present, else the old value. -/
def backendMain (tok : GoStr) (old : GoStr) : GoStr :=
  match splitOnFirst '/' tok with
  | some (b, _) => b
  | none => old

/-- The `BackendHost`/`BackendImageId`/`BackendContainerId` value of HAProxy
token 6: sub-part `k` of the `:`-split of the text after the first `/`, when
the shapes match exactly, else the old value. -/
def backendSub (k : Nat) (tok : GoStr) (old : GoStr) : GoStr :=
  match splitOnFirst '/' tok with
  | some (_, bc) => splitVal ':' 3 k bc old
  | none => old

/-- The tag-tokenizer fixture input of the spec. -/
def tagsFixture : GoStr :=
  "user=alice key=val call_time=0.5/3 blank=- quoted=\"a b c\"".data

/-- The Nginx body fixture of the spec. -/
def nginxBody : GoStr :=
  "host=a.com status=200 total=0.12 ua=\"Mozilla 5\" uri=\"/x\" ref=\"-\"".data

/-- A well-formed Unicorn line carrying a UUID-shaped token. -/
def uniRaw1 : GoStr :=
  "2013-01-01T10:00:00+01:00 myhost unicorn[123]: aaaaaaaa-bbbb-cccc-dddd-eeeeeeeeeeee".data

/-- A second raw line carrying a different UUID-shaped token. -/
def uniRaw2 : GoStr :=
  "ffffffff-0000-1111-2222-333333333333".data

/-- A 17-token HAProxy fixture line whose token 7 is `0/1/2/3/4`. -/
def hapRaw1 : GoStr :=
  "2013-01-01T10:00:00+01:00 host haproxy[9]: x3 x4 front be/h:i:c 0/1/2/3/4 200 77 a b c 1/1/1/1/1 0/0 \"GET /uri".data

/-- A 4-token HAProxy line (too short for the positional body). -/
def hapRaw2 : GoStr :=
  "2013-01-01T10:00:00+01:00 host haproxy x".data

/-- A well-enveloped `nginx` line whose body contains the fixture tokens and
one further `status=500` token. -/
def nginxCexRaw : GoStr :=
  "2013-06-21T10:12:20.687775+02:00 www1 nginx: host=a.com status=200 total=0.12 ua=\"Mozilla 5\" uri=\"/x\" ref=\"-\" status=500".data

end Dgtk

attribute [ext] Dgtk.SyslogLine Dgtk.UnicornLine Dgtk.NginxLine Dgtk.HAProxyLine

namespace Dgtk

/-- A record whose `parsed` flag is set is left unchanged by `Parse`, which
reports success. -/
theorem SyslogLine.parse_noop (l : SyslogLine) (raw : GoStr) (h : l.parsed = true) :
    SyslogLine.Parse l raw = (l, none) := by
  unfold SyslogLine.Parse
  simp [h]

/-- A not-yet-parsed record gets `Raw` and the token sequence overwritten by
`Parse`, on every path. -/
theorem SyslogLine.parse_sets_raw (l : SyslogLine) (raw : GoStr) (h : l.parsed = false) :
    (SyslogLine.Parse l raw).1.Raw = raw ∧
    (SyslogLine.Parse l raw).1.fields = goFields raw := by
  unfold SyslogLine.Parse
  simp only [h, Bool.false_eq_true, if_false]
  split <;> (try split) <;> (try split) <;> simp

/-- A successful `Parse` leaves the `parsed` flag set. -/
theorem SyslogLine.parse_success_parsed {l l' : SyslogLine} {raw : GoStr}
    (h : SyslogLine.Parse l raw = (l', none)) : l'.parsed = true := by
  unfold SyslogLine.Parse at h
  split at h
  · next hp => rw [Prod.mk.injEq] at h; exact h.1 ▸ hp
  · dsimp only at h
    split at h
    · split at h
      · rw [Prod.mk.injEq] at h; exact h.1 ▸ rfl
      · split at h
        · rw [Prod.mk.injEq] at h; exact h.1 ▸ rfl
        · rw [Prod.mk.injEq] at h; simp at h
    · rw [Prod.mk.injEq] at h; exact h.1 ▸ rfl

/-- A successful `Parse` records the raw line and its token sequence. -/
theorem SyslogLine.parse_eq_raw {l l' : SyslogLine} {raw : GoStr} {e : Option GoError}
    (h : SyslogLine.Parse l raw = (l', e)) (hp : l.parsed = false) :
    l'.Raw = raw ∧ l'.fields = goFields raw := by
  have := SyslogLine.parse_sets_raw l raw hp
  rw [h] at this
  exact this

/-- C5: for every raw line splitting into fewer than 3 whitespace tokens,
`SyslogLine.Parse` on a fresh record returns success and leaves `Time`,
`Host` and `Tag` at their zero/empty values. -/
theorem c5_short_line_success (raw : GoStr) (h : (goFields raw).length < 3) :
    (SyslogLine.Parse {} raw).2 = none ∧
    (SyslogLine.Parse {} raw).1.Time = GoTime.zero ∧
    (SyslogLine.Parse {} raw).1.Host = [] ∧
    (SyslogLine.Parse {} raw).1.Tag = [] := by
  unfold SyslogLine.Parse
  rcases hf : goFields raw with _ | ⟨f0, _ | ⟨f1, _ | ⟨f2, rest⟩⟩⟩ <;> simp_all
  omega

/-- C5 witness at the concrete two-token line `x y`. -/
theorem c5_short_line_success_witness :
    (SyslogLine.Parse {} "x y".data).2 = none ∧
    (SyslogLine.Parse {} "x y".data).1.Time = GoTime.zero ∧
    (SyslogLine.Parse {} "x y".data).1.Host = [] ∧
    (SyslogLine.Parse {} "x y".data).1.Tag = [] :=
  c5_short_line_success "x y".data (by decide)

/-- C6: with at least 3 tokens, the fractional-microsecond layout is tried
first and the whole-second layout second; `Parse` errors exactly when both
fail, and then `Host` and `Tag` stay unpopulated. -/
theorem c6_timestamp_order (raw f0 f1 f2 : GoStr) (rest : List GoStr)
    (h : goFields raw = f0 :: f1 :: f2 :: rest) :
    ((SyslogLine.Parse {} raw).2 ≠ none ↔
      parseTimeMicro f0 = none ∧ parseTimeNoMicro f0 = none) ∧
    (∀ t, parseTimeMicro f0 = some t → (SyslogLine.Parse {} raw).1.Time = t) ∧
    (∀ t, parseTimeMicro f0 = none → parseTimeNoMicro f0 = some t →
      (SyslogLine.Parse {} raw).1.Time = t) ∧
    ((SyslogLine.Parse {} raw).2 ≠ none →
      (SyslogLine.Parse {} raw).1.Host = [] ∧ (SyslogLine.Parse {} raw).1.Tag = []) := by
  unfold SyslogLine.Parse
  rcases hp : parseTag f2 with ⟨tg, sv, pd⟩
  rcases hm : parseTimeMicro f0 with _ | t1 <;>
    rcases hn : parseTimeNoMicro f0 with _ | t2 <;>
      simp_all

/-- C6 witness: a line whose first token satisfies the whole-second layout
only, and an erroring line. -/
theorem c6_timestamp_order_witness :
    ((SyslogLine.Parse {} "2013-01-01T10:00:00+01:00 h nginx:".data).2 ≠ none ↔
      parseTimeMicro "2013-01-01T10:00:00+01:00".data = none ∧
      parseTimeNoMicro "2013-01-01T10:00:00+01:00".data = none) ∧
    (∀ t, parseTimeMicro "2013-01-01T10:00:00+01:00".data = none →
      parseTimeNoMicro "2013-01-01T10:00:00+01:00".data = some t →
      (SyslogLine.Parse {} "2013-01-01T10:00:00+01:00 h nginx:".data).1.Time = t) :=
  ⟨(c6_timestamp_order "2013-01-01T10:00:00+01:00 h nginx:".data
      "2013-01-01T10:00:00+01:00".data "h".data "nginx:".data [] (by decide)).1,
   (c6_timestamp_order "2013-01-01T10:00:00+01:00 h nginx:".data
      "2013-01-01T10:00:00+01:00".data "h".data "nginx:".data [] (by decide)).2.2.1⟩

/-- C10: a timestamp failure on a fresh record still records `Raw` and the
token sequence, leaves `parsed` unset, and a subsequent `Parse` re-parses,
overwriting both. -/
theorem c10_failed_parse_state (raw : GoStr) (l1 : SyslogLine) (err : GoError)
    (h : SyslogLine.Parse {} raw = (l1, some err)) :
    l1.Raw = raw ∧ l1.fields = goFields raw ∧ l1.parsed = false ∧
    ∀ raw2 : GoStr, (SyslogLine.Parse l1 raw2).1.Raw = raw2 ∧
      (SyslogLine.Parse l1 raw2).1.fields = goFields raw2 := by
  have hraw := SyslogLine.parse_eq_raw h rfl
  have hparsed : l1.parsed = false := by
    unfold SyslogLine.Parse at h
    split at h
    · rw [Prod.mk.injEq] at h; simp at h
    · dsimp only at h
      split at h
      · split at h
        · rw [Prod.mk.injEq] at h; simp at h
        · split at h
          · rw [Prod.mk.injEq] at h; simp at h
          · rw [Prod.mk.injEq] at h; exact h.1 ▸ rfl
      · rw [Prod.mk.injEq] at h; simp at h
  exact ⟨hraw.1, hraw.2, hparsed,
    fun raw2 => SyslogLine.parse_sets_raw l1 raw2 hparsed⟩

/-- C10 witness: the three-token line `x y z`, whose first token fails both
timestamp layouts. -/
theorem c10_failed_parse_state_witness :
    (SyslogLine.Parse {} "x y z".data).1.Raw = "x y z".data ∧
    (SyslogLine.Parse {} "x y z".data).1.parsed = false ∧
    (SyslogLine.Parse ((SyslogLine.Parse {} "x y z".data).1) "ok go".data).1.Raw
      = "ok go".data := by
  have h := c10_failed_parse_state "x y z".data
    (SyslogLine.Parse {} "x y z".data).1
    (GoError.timestampFormat "x".data) (by decide)
  exact ⟨h.1, h.2.2.1, (h.2.2.2 "ok go".data).1⟩

/-- Unfolding equation for `goSplit` on a cons cell. -/
theorem goSplit_cons (sep c : Char) (s : GoStr) :
    goSplit sep (c :: s) =
      if c = sep then [] :: goSplit sep s
      else
        match goSplit sep s with
        | a :: r => (c :: a) :: r
        | [] => [[c]] := rfl

/-- `strings.Split` never returns an empty list. -/
theorem goSplit_ne_nil (sep : Char) (s : GoStr) : goSplit sep s ≠ [] := by
  induction s with
  | nil => simp [goSplit]
  | cons c cs ih =>
    rw [goSplit_cons]
    split
    · simp
    · rcases hg : goSplit sep cs with _ | ⟨a, r⟩ <;> simp

/-- `strings.Split` produces one part more than the separator count. -/
theorem goSplit_length (sep : Char) (s : GoStr) :
    (goSplit sep s).length = s.count sep + 1 := by
  induction s with
  | nil => rfl
  | cons c cs ih =>
    rw [goSplit_cons]
    by_cases hc : c = sep
    · simp [hc, List.count_cons, ih]
    · rcases hg : goSplit sep cs with _ | ⟨a, r⟩
      · exact absurd hg (goSplit_ne_nil sep cs)
      · rw [hg] at ih
        simp only [hg, List.length_cons, List.count_cons] at ih ⊢
        simp [hc, Ne.symm hc, ih]

/-- `strings.Split` without any separator occurrence is the identity part. -/
theorem goSplit_no_sep {sep : Char} {s : GoStr} (h : sep ∉ s) : goSplit sep s = [s] := by
  induction s with
  | nil => rfl
  | cons c cs ih =>
    have hc : ¬ c = sep := fun hh => h (hh ▸ List.mem_cons_self c cs)
    rw [goSplit_cons, if_neg hc, ih (fun hm => h (List.mem_cons_of_mem _ hm))]

/-- `strings.Split` at a single separator occurrence yields the two
surrounding parts. -/
theorem goSplit_sep_append {sep : Char} {a b : GoStr} (ha : sep ∉ a) (hb : sep ∉ b) :
    goSplit sep (a ++ sep :: b) = [a, b] := by
  induction a with
  | nil => simp [goSplit_cons, goSplit_no_sep hb]
  | cons c a' ih =>
    have hc : ¬ c = sep := fun hh => ha (hh ▸ List.mem_cons_self c a')
    rw [List.cons_append, goSplit_cons, if_neg hc,
      ih (fun hm => ha (List.mem_cons_of_mem _ hm))]

/-- C4 counterexample: on the candidate `a.b.c` the code keeps the whole
candidate as tag with empty severity, not the first-dot split `(a, b.c)`
the claim predicts. -/
theorem c4_counterexample :
    splitTagAndSeverity "a.b.c".data = ("a.b.c".data, []) ∧
    ("a.b.c".data, ([] : GoStr)) ≠ ("a".data, "b.c".data) := by decide

/-- C4 amended: the candidate is split on every `.`; exactly one dot yields
`(tag, severity)`, and zero or two-or-more dots keep the whole candidate as
tag with empty severity. -/
theorem c4_amended_split_all_dots :
    (∀ a b : GoStr, '.' ∉ a → '.' ∉ b →
      splitTagAndSeverity (a ++ '.' :: b) = (a, b)) ∧
    (∀ s : GoStr, '.' ∉ s → splitTagAndSeverity s = (s, [])) ∧
    (∀ s : GoStr, 2 ≤ s.count '.' → splitTagAndSeverity s = (s, [])) := by
  refine ⟨fun a b ha hb => ?_, fun s hs => ?_, fun s hs => ?_⟩
  · unfold splitTagAndSeverity
    rw [goSplit_sep_append ha hb]
  · unfold splitTagAndSeverity
    rw [goSplit_no_sep hs]
  · unfold splitTagAndSeverity
    have hl := goSplit_length '.' s
    rcases hg : goSplit '.' s with _ | ⟨x, _ | ⟨y, _ | ⟨z, t⟩⟩⟩ <;>
      rw [hg] at hl <;> simp at hl <;> omega

/-- C4 amended witness at one-dot, no-dot and two-dot candidates. -/
theorem c4_amended_split_all_dots_witness :
    splitTagAndSeverity ("app".data ++ '.' :: "warn".data) = ("app".data, "warn".data) ∧
    splitTagAndSeverity "nginx".data = ("nginx".data, []) ∧
    splitTagAndSeverity "a.b.c".data = ("a.b.c".data, []) :=
  ⟨c4_amended_split_all_dots.1 "app".data "warn".data (by decide) (by decide),
   c4_amended_split_all_dots.2.1 "nginx".data (by decide),
   c4_amended_split_all_dots.2.2 "a.b.c".data (by decide)⟩

/-- C2 counterexample: on the fixture input the `call_time` composite pair is
absent from the result (the key `call_time` contains `_`, which the key
pattern `(?i)^[a-z]+$` rejects), contradicting the claimed entries
`call_time_time`/`call_time_calls`. -/
theorem c2_counterexample :
    mapLookup (parseTags tagsFixture) "call_time_time".data = none ∧
    mapLookup (parseTags tagsFixture) "call_time_calls".data = none := by decide

/-- C2 amended: the fixture yields exactly
`{user: "alice", key: "val", quoted: "a b c"}`; `call_time=0.5/3` is skipped
because its key contains a non-alphabetic character, and `blank` is absent. -/
theorem c2_amended_tokenizer_fixture :
    parseTags tagsFixture =
      [("user".data, .str "alice".data),
       ("key".data, .str "val".data),
       ("quoted".data, .str "a b c".data)] := by decide

/-- C3: the code never sets `tagsParsed`, so the tag map is recomputed on
every `Tags` call rather than cached: after a first `Tags` call the flag is
still unset, and a second call ignores (overwrites) whatever is stored in
the `tags` field instead of returning it. -/
theorem c3_tags_recomputed :
    ((({ Raw := "a=1 b=two".data } : SyslogLine).Tags).1.tagsParsed = false) ∧
    ((({ (({ Raw := "a=1 b=two".data } : SyslogLine).Tags).1 with
          tags := [("zz".data, TagValue.int 9)] } : SyslogLine).Tags).2 =
        parseTags "a=1 b=two".data) ∧
    parseTags "a=1 b=two".data ≠ [("zz".data, TagValue.int 9)] := by decide

/-- Characterization of `UnicornLine.Parse` when the envelope parse
succeeds: tag mismatch errors with the observed tag, tag match scans the raw
argument for a UUID when at least four tokens are stored. -/
theorem unicorn_parse_char (u : UnicornLine) (raw : GoStr) (s : SyslogLine)
    (hps : SyslogLine.Parse u.syslogLine raw = (s, none)) :
    UnicornLine.Parse u raw =
      if s.Tag = "unicorn".data then
        (if 4 ≤ s.fields.length then
           { u with syslogLine := s, UUID := (uuidFind raw).getD u.UUID }
         else { u with syslogLine := s }, none)
      else ({ u with syslogLine := s }, some (.unsupportedTag s.Tag)) := by
  unfold UnicornLine.Parse
  rw [hps]
  by_cases ht : s.Tag = "unicorn".data <;> simp [ht]
  by_cases hl : 4 ≤ s.fields.length <;> simp [hl]
  cases hu : uuidFind raw <;> simp [hu]

/-- Characterization of `NginxLine.Parse` when the envelope parse succeeds:
tag mismatch errors with the observed tag, tag match runs the generic pass
over the stored tokens and the quoted pass over the raw argument. -/
theorem nginx_parse_char (n : NginxLine) (raw : GoStr) (s : SyslogLine)
    (hps : SyslogLine.Parse (n.syslogLine.getD {}) raw = (s, none)) :
    NginxLine.Parse n raw =
      if s.Tag = "ssl_endpoint".data ∨ s.Tag = "nginx".data then
        (applyQuotes (s.fields.foldl nginxApplyField { n with syslogLine := some s })
           (findQuotes raw), none)
      else ({ n with syslogLine := some s }, some (.unsupportedTag s.Tag)) := by
  unfold NginxLine.Parse
  dsimp only
  rw [hps]
  by_cases ht : s.Tag = "ssl_endpoint".data ∨ s.Tag = "nginx".data
  · rcases ht with ht | ht <;> simp [ht]
  · rw [not_or] at ht
    simp [ht.1, ht.2, ht]

/-- Characterization of `HAProxyLine.Parse` when the envelope parse
succeeds: tag mismatch errors with the observed tag, tag match runs the
positional body extraction. -/
theorem haproxy_parse_char (hl : HAProxyLine) (raw : GoStr) (s : SyslogLine)
    (hps : SyslogLine.Parse hl.syslogLine raw = (s, none)) :
    HAProxyLine.Parse hl raw =
      if s.Tag = "haproxy".data then (haproxyBody { hl with syslogLine := s }, none)
      else ({ hl with syslogLine := s }, some (.unsupportedTag s.Tag)) := by
  unfold HAProxyLine.Parse
  rw [hps]
  by_cases ht : s.Tag = "haproxy".data <;> simp [ht]

/-- C9: on a line whose envelope parses, each adapter errors exactly when the
envelope tag differs from its expected program name(s), the error carrying
the observed tag; in particular a `unicorn`-tagged line fed to the HAProxy
adapter errors with tag `unicorn`. -/
theorem c9_adapter_tag_errors (raw : GoStr) (s : SyslogLine)
    (h : SyslogLine.Parse {} raw = (s, none)) :
    (((UnicornLine.Parse {} raw).2 ≠ none ↔ s.Tag ≠ "unicorn".data) ∧
      (s.Tag ≠ "unicorn".data →
        (UnicornLine.Parse {} raw).2 = some (.unsupportedTag s.Tag))) ∧
    (((NginxLine.Parse {} raw).2 ≠ none ↔
        (s.Tag ≠ "ssl_endpoint".data ∧ s.Tag ≠ "nginx".data)) ∧
      (s.Tag ≠ "ssl_endpoint".data → s.Tag ≠ "nginx".data →
        (NginxLine.Parse {} raw).2 = some (.unsupportedTag s.Tag))) ∧
    (((HAProxyLine.Parse {} raw).2 ≠ none ↔ s.Tag ≠ "haproxy".data) ∧
      (s.Tag ≠ "haproxy".data →
        (HAProxyLine.Parse {} raw).2 = some (.unsupportedTag s.Tag))) ∧
    (s.Tag = "unicorn".data →
      (HAProxyLine.Parse {} raw).2 = some (.unsupportedTag "unicorn".data)) := by
  have hu := unicorn_parse_char {} raw s h
  have hn := nginx_parse_char {} raw s h
  have hh := haproxy_parse_char {} raw s h
  rw [hu, hn, hh]
  refine ⟨⟨?_, ?_⟩, ⟨?_, ?_⟩, ⟨?_, ?_⟩, ?_⟩
  · by_cases ht : s.Tag = "unicorn".data <;> simp [ht]
  · intro ht; simp [ht]
  · by_cases ht : s.Tag = "ssl_endpoint".data ∨ s.Tag = "nginx".data
    · simp [ht]
      rcases ht with ht | ht <;> simp [ht]
    · rw [not_or] at ht
      simp [ht.1, ht.2]
  · intro h1 h2
    have : ¬ (s.Tag = "ssl_endpoint".data ∨ s.Tag = "nginx".data) := by
      rw [not_or]; exact ⟨h1, h2⟩
    simp [this]
  · by_cases ht : s.Tag = "haproxy".data <;> simp [ht]
  · intro ht; simp [ht]
  · intro ht
    have hne : s.Tag ≠ "haproxy".data := by rw [ht]; decide
    simp [hne, ht]

/-- C9 witness: the concrete Unicorn line `uniRaw1` fed to the HAProxy
adapter errors with the observed tag `unicorn`. -/
theorem c9_adapter_tag_errors_witness :
    (HAProxyLine.Parse {} uniRaw1).2 = some (.unsupportedTag "unicorn".data) :=
  (c9_adapter_tag_errors uniRaw1 (SyslogLine.Parse {} uniRaw1).1
      (by decide)).2.2.2 (by decide)

/-- `hapTimes` on the fixture tuple `0/1/2/3/4` writes the five phases. -/
theorem hapTimes_fixture (l : HAProxyLine) :
    hapTimes l "0/1/2/3/4".data =
      { l with ClientRequestTime := 0, ConnectionQueueTime := 1, TcpConnectTime := 2,
               ServerResponseTime := 3, SessionDurationTime := 4 } := by
  unfold hapTimes
  rw [show goSplit '/' "0/1/2/3/4".data =
        ["0".data, "1".data, "2".data, "3".data, "4".data] from rfl]
  norm_num
  decide

/-- C8: on a `haproxy`-tagged line, more than 16 tokens trigger the
positional body (token 7 equal to `0/1/2/3/4` yields the five timing
phases 0..4), while 16 or fewer tokens leave the record fresh apart from
the envelope, with no error. -/
theorem c8_haproxy_positional (raw : GoStr) (s : SyslogLine)
    (h : SyslogLine.Parse {} raw = (s, none)) (ht : s.Tag = "haproxy".data) :
    (16 < s.fields.length → s.fields.getD 7 [] = "0/1/2/3/4".data →
      ((HAProxyLine.Parse {} raw).2 = none ∧
       (HAProxyLine.Parse {} raw).1.ClientRequestTime = 0 ∧
       (HAProxyLine.Parse {} raw).1.ConnectionQueueTime = 1 ∧
       (HAProxyLine.Parse {} raw).1.TcpConnectTime = 2 ∧
       (HAProxyLine.Parse {} raw).1.ServerResponseTime = 3 ∧
       (HAProxyLine.Parse {} raw).1.SessionDurationTime = 4)) ∧
    (s.fields.length ≤ 16 →
      HAProxyLine.Parse {} raw = ({ ({} : HAProxyLine) with syslogLine := s }, none)) := by
  rw [haproxy_parse_char {} raw s h, if_pos ht]
  constructor
  · intro hlen h7
    rcases hfs : s.fields with _ | ⟨f0, _ | ⟨f1, _ | ⟨f2, _ | ⟨f3, _ | ⟨f4, _ | ⟨f5, _ |
      ⟨f6, _ | ⟨f7, _ | ⟨f8, _ | ⟨f9, _ | ⟨f10, _ | ⟨f11, _ | ⟨f12, _ | ⟨f13, _ |
      ⟨f14, _ | ⟨f15, _ | ⟨f16, rest⟩⟩⟩⟩⟩⟩⟩⟩⟩⟩⟩⟩⟩⟩⟩⟩⟩ <;>
      (try (exfalso; rw [hfs] at hlen;
            simp only [List.length_cons, List.length_nil] at hlen; omega))
    have hf7 : f7 = "0/1/2/3/4".data := by
      rw [hfs] at h7; simpa using h7
    unfold haproxyBody
    dsimp only
    rw [hfs]
    dsimp only
    rw [hf7, hapTimes_fixture]
    refine ⟨rfl, ?_⟩
    unfold hapQueues hapConns
    split <;> split <;> simp
  · intro hlen
    rcases hfs : s.fields with _ | ⟨f0, _ | ⟨f1, _ | ⟨f2, _ | ⟨f3, _ | ⟨f4, _ | ⟨f5, _ |
      ⟨f6, _ | ⟨f7, _ | ⟨f8, _ | ⟨f9, _ | ⟨f10, _ | ⟨f11, _ | ⟨f12, _ | ⟨f13, _ |
      ⟨f14, _ | ⟨f15, _ | ⟨f16, rest⟩⟩⟩⟩⟩⟩⟩⟩⟩⟩⟩⟩⟩⟩⟩⟩⟩ <;>
      (try (exfalso; rw [hfs] at hlen;
            simp only [List.length_cons, List.length_nil] at hlen; omega)) <;>
      (unfold haproxyBody; dsimp only; rw [hfs])

/-- C8 witness: the 17-token fixture yields timing phases 0..4; the 4-token
line leaves the record fresh apart from the envelope. -/
theorem c8_haproxy_positional_witness :
    ((HAProxyLine.Parse {} hapRaw1).2 = none ∧
     (HAProxyLine.Parse {} hapRaw1).1.ClientRequestTime = 0 ∧
     (HAProxyLine.Parse {} hapRaw1).1.ConnectionQueueTime = 1 ∧
     (HAProxyLine.Parse {} hapRaw1).1.TcpConnectTime = 2 ∧
     (HAProxyLine.Parse {} hapRaw1).1.ServerResponseTime = 3 ∧
     (HAProxyLine.Parse {} hapRaw1).1.SessionDurationTime = 4) ∧
    HAProxyLine.Parse {} hapRaw2 =
      ({ ({} : HAProxyLine) with syslogLine := (SyslogLine.Parse {} hapRaw2).1 }, none) :=
  ⟨(c8_haproxy_positional hapRaw1 (SyslogLine.Parse {} hapRaw1).1
      (by decide) (by decide)).1 (by decide) (by decide),
   (c8_haproxy_positional hapRaw2 (SyslogLine.Parse {} hapRaw2).1
      (by decide) (by decide)).2 (by decide)⟩

/-- `hapBackend` as a one-level record update. -/
theorem hapBackend_char (l : HAProxyLine) (t : GoStr) :
    hapBackend l t =
      { l with Backend := backendMain t l.Backend,
               BackendHost := backendSub 0 t l.BackendHost,
               BackendImageId := backendSub 1 t l.BackendImageId,
               BackendContainerId := backendSub 2 t l.BackendContainerId } := by
  unfold hapBackend backendMain backendSub
  rcases hsp : splitOnFirst '/' t with _ | ⟨b, bc⟩
  · rfl
  · dsimp only
    rcases hg : goSplit ':' bc with _ | ⟨a1, _ | ⟨a2, _ | ⟨a3, _ | ⟨a4, r⟩⟩⟩⟩ <;>
      simp [splitVal, hg]

/-- `hapTimes` as a one-level record update. -/
theorem hapTimes_char (l : HAProxyLine) (t : GoStr) :
    hapTimes l t =
      { l with ClientRequestTime := splitIntVal '/' 5 0 t l.ClientRequestTime,
               ConnectionQueueTime := splitIntVal '/' 5 1 t l.ConnectionQueueTime,
               TcpConnectTime := splitIntVal '/' 5 2 t l.TcpConnectTime,
               ServerResponseTime := splitIntVal '/' 5 3 t l.ServerResponseTime,
               SessionDurationTime := splitIntVal '/' 5 4 t l.SessionDurationTime } := by
  unfold hapTimes
  rcases hg : goSplit '/' t with _ | ⟨a1, _ | ⟨a2, _ | ⟨a3, _ | ⟨a4, _ | ⟨a5, _ | ⟨a6, r⟩⟩⟩⟩⟩⟩ <;>
    simp [splitIntVal, hg]

/-- `hapConns` as a one-level record update. -/
theorem hapConns_char (l : HAProxyLine) (t : GoStr) :
    hapConns l t =
      { l with ActiveConnections := splitIntVal '/' 5 0 t l.ActiveConnections,
               FrontendConnections := splitIntVal '/' 5 1 t l.FrontendConnections,
               BackendConnectons := splitIntVal '/' 5 2 t l.BackendConnectons,
               ServerConnections := splitIntVal '/' 5 3 t l.ServerConnections,
               Retries := splitIntVal '/' 5 4 t l.Retries } := by
  unfold hapConns
  rcases hg : goSplit '/' t with _ | ⟨a1, _ | ⟨a2, _ | ⟨a3, _ | ⟨a4, _ | ⟨a5, _ | ⟨a6, r⟩⟩⟩⟩⟩⟩ <;>
    simp [splitIntVal, hg]

/-- `hapQueues` as a one-level record update. -/
theorem hapQueues_char (l : HAProxyLine) (t : GoStr) :
    hapQueues l t =
      { l with ServerQueue := splitIntVal '/' 2 0 t l.ServerQueue,
               BackendQueue := splitIntVal '/' 2 1 t l.BackendQueue } := by
  unfold hapQueues
  rcases hg : goSplit '/' t with _ | ⟨a1, _ | ⟨a2, _ | ⟨a3, r⟩⟩⟩ <;>
    simp [splitIntVal, hg]

/-- `splitVal` is idempotent in the old value. -/
theorem splitVal_idem (sep : Char) (n k : Nat) (t : GoStr) (o : GoStr) :
    splitVal sep n k t (splitVal sep n k t o) = splitVal sep n k t o := by
  unfold splitVal
  split <;> rfl

/-- `splitIntVal` is idempotent in the old value. -/
theorem splitIntVal_idem (sep : Char) (n k : Nat) (t : GoStr) (o : Int) :
    splitIntVal sep n k t (splitIntVal sep n k t o) = splitIntVal sep n k t o := by
  unfold splitIntVal
  split <;> rfl

/-- `backendMain` is idempotent in the old value. -/
theorem backendMain_idem (t : GoStr) (o : GoStr) :
    backendMain t (backendMain t o) = backendMain t o := by
  unfold backendMain
  split <;> rfl

/-- `backendSub` is idempotent in the old value. -/
theorem backendSub_idem (k : Nat) (t : GoStr) (o : GoStr) :
    backendSub k t (backendSub k t o) = backendSub k t o := by
  unfold backendSub
  split
  · exact splitVal_idem ..
  · rfl

/-- The positional body as a single record update over the 17-token shape. -/
theorem haproxyBody_char (x : HAProxyLine)
    (f0 f1 f2 f3 f4 f5 f6 f7 f8 f9 f10 f11 f12 f13 f14 f15 f16 : GoStr)
    (rest : List GoStr)
    (hfs : x.syslogLine.fields = f0 :: f1 :: f2 :: f3 :: f4 :: f5 :: f6 :: f7 :: f8 ::
      f9 :: f10 :: f11 :: f12 :: f13 :: f14 :: f15 :: f16 :: rest) :
    haproxyBody x =
      { x with
        Frontend := f5,
        Backend := backendMain f6 x.Backend,
        BackendHost := backendSub 0 f6 x.BackendHost,
        BackendImageId := backendSub 1 f6 x.BackendImageId,
        BackendContainerId := backendSub 2 f6 x.BackendContainerId,
        ClientRequestTime := splitIntVal '/' 5 0 f7 x.ClientRequestTime,
        ConnectionQueueTime := splitIntVal '/' 5 1 f7 x.ConnectionQueueTime,
        TcpConnectTime := splitIntVal '/' 5 2 f7 x.TcpConnectTime,
        ServerResponseTime := splitIntVal '/' 5 3 f7 x.ServerResponseTime,
        SessionDurationTime := splitIntVal '/' 5 4 f7 x.SessionDurationTime,
        Status := f8,
        Length := (goParseInt f9).getD 0,
        ActiveConnections := splitIntVal '/' 5 0 f13 x.ActiveConnections,
        FrontendConnections := splitIntVal '/' 5 1 f13 x.FrontendConnections,
        BackendConnectons := splitIntVal '/' 5 2 f13 x.BackendConnectons,
        ServerConnections := splitIntVal '/' 5 3 f13 x.ServerConnections,
        Retries := splitIntVal '/' 5 4 f13 x.Retries,
        ServerQueue := splitIntVal '/' 2 0 f14 x.ServerQueue,
        BackendQueue := splitIntVal '/' 2 1 f14 x.BackendQueue,
        Method := f15.drop 1,
        Uri := f16 } := by
  unfold haproxyBody
  rw [hfs]
  dsimp only
  rw [hapBackend_char, hapTimes_char, hapConns_char, hapQueues_char]

/-- The positional body leaves the embedded envelope untouched. -/
theorem haproxyBody_syslog (x : HAProxyLine) :
    (haproxyBody x).syslogLine = x.syslogLine := by
  rcases hfs : x.syslogLine.fields with _ | ⟨f0, _ | ⟨f1, _ | ⟨f2, _ | ⟨f3, _ | ⟨f4, _ |
    ⟨f5, _ | ⟨f6, _ | ⟨f7, _ | ⟨f8, _ | ⟨f9, _ | ⟨f10, _ | ⟨f11, _ | ⟨f12, _ | ⟨f13, _ |
    ⟨f14, _ | ⟨f15, _ | ⟨f16, rest⟩⟩⟩⟩⟩⟩⟩⟩⟩⟩⟩⟩⟩⟩⟩⟩⟩ <;>
    first
      | (rw [haproxyBody_char x _ _ _ _ _ _ _ _ _ _ _ _ _ _ _ _ _ _ hfs])
      | (unfold haproxyBody; rw [hfs])

/-- The positional body is idempotent. -/
theorem haproxyBody_idem (x : HAProxyLine) :
    haproxyBody (haproxyBody x) = haproxyBody x := by
  rcases hfs : x.syslogLine.fields with _ | ⟨f0, _ | ⟨f1, _ | ⟨f2, _ | ⟨f3, _ | ⟨f4, _ |
    ⟨f5, _ | ⟨f6, _ | ⟨f7, _ | ⟨f8, _ | ⟨f9, _ | ⟨f10, _ | ⟨f11, _ | ⟨f12, _ | ⟨f13, _ |
    ⟨f14, _ | ⟨f15, _ | ⟨f16, rest⟩⟩⟩⟩⟩⟩⟩⟩⟩⟩⟩⟩⟩⟩⟩⟩⟩
  case cons.cons.cons.cons.cons.cons.cons.cons.cons.cons.cons.cons.cons.cons.cons.cons.cons =>
    have h1 := haproxyBody_char x _ _ _ _ _ _ _ _ _ _ _ _ _ _ _ _ _ _ hfs
    have hfs2 : (haproxyBody x).syslogLine.fields = f0 :: f1 :: f2 :: f3 :: f4 :: f5 ::
        f6 :: f7 :: f8 :: f9 :: f10 :: f11 :: f12 :: f13 :: f14 :: f15 :: f16 :: rest := by
      rw [haproxyBody_syslog, hfs]
    have h2 := haproxyBody_char (haproxyBody x) _ _ _ _ _ _ _ _ _ _ _ _ _ _ _ _ _ _ hfs2
    rw [h2]
    rw [h1]
    simp [backendMain_idem, backendSub_idem, splitIntVal_idem]
  all_goals
    have hx : haproxyBody x = x := by unfold haproxyBody; rw [hfs]
    rw [hx, hx]

/-- Reassociation of the keep-or-fallback chain under `getD`. -/
theorem orKeep_getD {α : Type} (o c : Option α) (d : α) :
    (orKeep o c).getD d = o.getD (c.getD d) := by
  cases o <;> rfl

/-- Reassociation of the keep-or-fallback chain under `map` and `getD`. -/
theorem orKeep_map_getD {α β : Type} (o c : Option α) (g : α → β) (d : β) :
    ((orKeep o c).map g).getD d = (o.map g).getD ((c.map g).getD d) := by
  cases o <;> rfl

/-- Falling back twice to the same option is falling back once. -/
theorem opt_getD_self {α : Type} (o : Option α) (d : α) :
    o.getD (o.getD d) = o.getD d := by
  cases o <;> rfl

/-- The generic pass of `NginxLine.Parse` as a single record update: each
switch key receives the value of its last `key=value` token, or keeps the
start value when the key is absent. -/
theorem nginx_fold_char (fs : List GoStr) : ∀ l : NginxLine,
    fs.foldl nginxApplyField l =
      { l with
        Method := (lastVal "method".data fs).getD l.Method,
        Status := (lastVal "status".data fs).getD l.Status,
        HttpHost := (lastVal "host".data fs).getD l.HttpHost,
        Length := ((lastVal "length".data fs).map
          (fun v => (goParseInt v).getD 0)).getD l.Length,
        TotalTime := ((lastVal "total".data fs).map
          (fun v => (goParseFloat v).getD 0)).getD l.TotalTime,
        UnicornTime := ((lastVal "unicorn_time".data fs).map
          (fun v => (goParseFloat v).getD 0)).getD l.UnicornTime } := by
  induction fs with
  | nil => intro l; rfl
  | cons f fs ih =>
    intro l
    rw [List.foldl_cons, ih]
    simp only [lastVal]
    unfold nginxApplyField tokVal
    rcases hsp : splitOnFirst '=' f with _ | ⟨k, v⟩
    · simp [orKeep_getD, orKeep_map_getD]
    · dsimp only
      split_ifs <;>
        simp_all [orKeep_getD, orKeep_map_getD]

/-- The quoted pass only writes `UserAgentName`, `Uri` and `Referer`. -/
theorem applyQuotes_preserves (q : List (GoStr × GoStr)) : ∀ l : NginxLine,
    (applyQuotes l q).syslogLine = l.syslogLine ∧
    (applyQuotes l q).Method = l.Method ∧
    (applyQuotes l q).Status = l.Status ∧
    (applyQuotes l q).HttpHost = l.HttpHost ∧
    (applyQuotes l q).Length = l.Length ∧
    (applyQuotes l q).TotalTime = l.TotalTime ∧
    (applyQuotes l q).UnicornTime = l.UnicornTime := by
  induction q with
  | nil => intro l; exact ⟨rfl, rfl, rfl, rfl, rfl, rfl, rfl⟩
  | cons kv rest ih =>
    intro l
    obtain ⟨k, v⟩ := kv
    unfold applyQuotes
    split_ifs <;> simp [ih]

/-- C1 counterexample: after a successful Unicorn parse of `uniRaw1`, a
second `Parse` with `uniRaw2` reports success but changes the record — the
`UUID` field is re-extracted from the second raw line. -/
theorem c1_counterexample :
    (UnicornLine.Parse {} uniRaw1).2 = none ∧
    (UnicornLine.Parse ((UnicornLine.Parse {} uniRaw1).1) uniRaw2).2 = none ∧
    (UnicornLine.Parse ((UnicornLine.Parse {} uniRaw1).1) uniRaw2).1 ≠
      (UnicornLine.Parse {} uniRaw1).1 := by decide

/-- C1 amended: a second `Parse` after a successful one reports success and
leaves the `SyslogLine` envelope and every field derived from the stored
token sequence unchanged; `HAProxyLine` records are left fully unchanged,
but `UnicornLine.UUID` (when at least 4 tokens are stored) and
`NginxLine`'s quoted fields are re-extracted from the second raw line and
may change. -/
theorem c1_amended_second_parse :
    (∀ (l : SyslogLine) (raw : GoStr), l.parsed = true →
       SyslogLine.Parse l raw = (l, none)) ∧
    (∀ (u : UnicornLine) (raw1 raw2 : GoStr) (u1 : UnicornLine),
       UnicornLine.Parse u raw1 = (u1, none) →
       UnicornLine.Parse u1 raw2 =
         (if 4 ≤ u1.syslogLine.fields.length then
            { u1 with UUID := (uuidFind raw2).getD u1.UUID }
          else u1, none)) ∧
    (∀ (n : NginxLine) (raw1 raw2 : GoStr) (n1 : NginxLine),
       NginxLine.Parse n raw1 = (n1, none) →
       NginxLine.Parse n1 raw2 = (applyQuotes n1 (findQuotes raw2), none)) ∧
    (∀ (hp : HAProxyLine) (raw1 raw2 : GoStr) (h1 : HAProxyLine),
       HAProxyLine.Parse hp raw1 = (h1, none) →
       HAProxyLine.Parse h1 raw2 = (h1, none)) := by
  refine ⟨fun l raw h => SyslogLine.parse_noop l raw h, ?_, ?_, ?_⟩
  · -- Unicorn
    intro u raw1 raw2 u1 h
    rcases hps : SyslogLine.Parse u.syslogLine raw1 with ⟨s, e⟩
    have he : e = none := by
      rcases e with _ | err
      · rfl
      · exfalso
        unfold UnicornLine.Parse at h
        rw [hps] at h
        dsimp only at h
        rw [Prod.mk.injEq] at h
        simp at h
    subst he
    have hchar := unicorn_parse_char u raw1 s hps
    rw [hchar] at h
    by_cases ht : s.Tag = "unicorn".data
    · rw [if_pos ht] at h
      have hu1 : (if 4 ≤ s.fields.length then
          { u with syslogLine := s, UUID := (uuidFind raw1).getD u.UUID }
        else { u with syslogLine := s }) = u1 := by
        have := congrArg Prod.fst h
        simpa using this
      have hsys1 : u1.syslogLine = s := by
        rw [← hu1]; split <;> rfl
      have htag1 : u1.syslogLine.Tag = "unicorn".data := by rw [hsys1]; exact ht
      have hparsed := SyslogLine.parse_success_parsed hps
      have hps2 : SyslogLine.Parse u1.syslogLine raw2 = (u1.syslogLine, none) :=
        SyslogLine.parse_noop _ _ (by rw [hsys1]; exact hparsed)
      have hchar2 := unicorn_parse_char u1 raw2 u1.syslogLine hps2
      rw [hchar2, if_pos htag1]
    · rw [if_neg ht] at h
      rw [Prod.mk.injEq] at h
      simp at h
  · -- Nginx
    intro n raw1 raw2 n1 h
    rcases hps : SyslogLine.Parse (n.syslogLine.getD {}) raw1 with ⟨s, e⟩
    have he : e = none := by
      rcases e with _ | err
      · rfl
      · exfalso
        unfold NginxLine.Parse at h
        dsimp only at h
        rw [hps] at h
        dsimp only at h
        rw [Prod.mk.injEq] at h
        simp at h
    subst he
    have hchar := nginx_parse_char n raw1 s hps
    rw [hchar] at h
    by_cases ht : s.Tag = "ssl_endpoint".data ∨ s.Tag = "nginx".data
    · rw [if_pos ht] at h
      have hn1 : applyQuotes (s.fields.foldl nginxApplyField { n with syslogLine := some s })
          (findQuotes raw1) = n1 := by
        have := congrArg Prod.fst h
        simpa using this
      have hsys1 : n1.syslogLine = some s := by
        rw [← hn1, (applyQuotes_preserves _ _).1, nginx_fold_char]
      have hparsed := SyslogLine.parse_success_parsed hps
      have hps2 : SyslogLine.Parse (n1.syslogLine.getD {}) raw2 = (s, none) := by
        rw [hsys1]
        exact SyslogLine.parse_noop s raw2 hparsed
      have hchar2 := nginx_parse_char n1 raw2 s hps2
      rw [hchar2, if_pos ht]
      have heta : { n1 with syslogLine := some s } = n1 := by rw [← hsys1]
      rw [heta]
      have hfold : s.fields.foldl nginxApplyField n1 = n1 := by
        rw [← hn1]
        obtain ⟨hp1, hp2, hp3, hp4, hp5, hp6, hp7⟩ :=
          applyQuotes_preserves (findQuotes raw1)
            (s.fields.foldl nginxApplyField { n with syslogLine := some s })
        have hm2 : (applyQuotes (s.fields.foldl nginxApplyField
            { n with syslogLine := some s }) (findQuotes raw1)).Method =
            (lastVal "method".data s.fields).getD n.Method := by
          rw [hp2, nginx_fold_char]
        have hm3 : (applyQuotes (s.fields.foldl nginxApplyField
            { n with syslogLine := some s }) (findQuotes raw1)).Status =
            (lastVal "status".data s.fields).getD n.Status := by
          rw [hp3, nginx_fold_char]
        have hm4 : (applyQuotes (s.fields.foldl nginxApplyField
            { n with syslogLine := some s }) (findQuotes raw1)).HttpHost =
            (lastVal "host".data s.fields).getD n.HttpHost := by
          rw [hp4, nginx_fold_char]
        have hm5 : (applyQuotes (s.fields.foldl nginxApplyField
            { n with syslogLine := some s }) (findQuotes raw1)).Length =
            ((lastVal "length".data s.fields).map
              (fun v => (goParseInt v).getD 0)).getD n.Length := by
          rw [hp5, nginx_fold_char]
        have hm6 : (applyQuotes (s.fields.foldl nginxApplyField
            { n with syslogLine := some s }) (findQuotes raw1)).TotalTime =
            ((lastVal "total".data s.fields).map
              (fun v => (goParseFloat v).getD 0)).getD n.TotalTime := by
          rw [hp6, nginx_fold_char]
        have hm7 : (applyQuotes (s.fields.foldl nginxApplyField
            { n with syslogLine := some s }) (findQuotes raw1)).UnicornTime =
            ((lastVal "unicorn_time".data s.fields).map
              (fun v => (goParseFloat v).getD 0)).getD n.UnicornTime := by
          rw [hp7, nginx_fold_char]
        rw [nginx_fold_char s.fields (applyQuotes (s.fields.foldl nginxApplyField
          { n with syslogLine := some s }) (findQuotes raw1))]
        refine NginxLine.ext ?_ ?_ ?_ ?_ ?_ ?_ ?_ ?_ ?_ ?_ <;>
          simp [hm2, hm3, hm4, hm5, hm6, hm7, opt_getD_self]
      rw [hfold]
    · rw [if_neg ht] at h
      rw [Prod.mk.injEq] at h
      simp at h
  · -- HAProxy
    intro hp0 raw1 raw2 h1 h
    rcases hps : SyslogLine.Parse hp0.syslogLine raw1 with ⟨s, e⟩
    have he : e = none := by
      rcases e with _ | err
      · rfl
      · exfalso
        unfold HAProxyLine.Parse at h
        rw [hps] at h
        dsimp only at h
        rw [Prod.mk.injEq] at h
        simp at h
    subst he
    have hchar := haproxy_parse_char hp0 raw1 s hps
    rw [hchar] at h
    by_cases ht : s.Tag = "haproxy".data
    · rw [if_pos ht] at h
      have hh1 : haproxyBody { hp0 with syslogLine := s } = h1 := by
        have := congrArg Prod.fst h
        simpa using this
      have hsys1 : h1.syslogLine = s := by
        rw [← hh1, haproxyBody_syslog]
      have htag1 : h1.syslogLine.Tag = "haproxy".data := by rw [hsys1]; exact ht
      have hparsed := SyslogLine.parse_success_parsed hps
      have hps2 : SyslogLine.Parse h1.syslogLine raw2 = (h1.syslogLine, none) :=
        SyslogLine.parse_noop _ _ (by rw [hsys1]; exact hparsed)
      have hchar2 := haproxy_parse_char h1 raw2 h1.syslogLine hps2
      rw [hchar2, if_pos htag1]
      have heta : { h1 with syslogLine := h1.syslogLine } = h1 := rfl
      rw [heta, ← hh1, haproxyBody_idem]
    · rw [if_neg ht] at h
      rw [Prod.mk.injEq] at h
      simp at h

/-- Splitting a string at an inserted whitespace separator concatenates the
token lists of the two halves. -/
theorem fieldsAux_append_space {c : Char} (hc : isGoSpace c = true) :
    ∀ (a acc b : List Char),
      fieldsAux (a ++ c :: b) acc = fieldsAux a acc ++ fieldsAux b [] := by
  intro a
  induction a with
  | nil =>
    intro acc b
    by_cases hacc : acc = [] <;> simp [fieldsAux, hc, hacc]
  | cons x a' ih =>
    intro acc b
    by_cases hx : isGoSpace x
    · by_cases hacc : acc = [] <;> simp [fieldsAux, hx, hacc, ih]
    · simp [fieldsAux, hx, ih]

/-- `strings.Fields` distributes over concatenation at a space. -/
theorem goFields_space_append (a b : GoStr) :
    goFields (a ++ ' ' :: b) = goFields a ++ goFields b :=
  fieldsAux_append_space (by decide) a [] b

/-- A position whose first five characters contain no quote starts no
quoted-field match. -/
theorem quoteKeyAt_eq_none {l : GoStr} (h : ∀ x ∈ l.take 5, x ≠ '"') :
    quoteKeyAt l = none := by
  have h4 : ∀ x ∈ l.take 4, x ≠ '"' := by
    intro x hx
    apply h
    have h44 : l.take 4 = (l.take 5).take 4 := by
      rw [List.take_take]
      norm_num
    rw [h44] at hx
    exact List.take_subset _ _ hx
  unfold quoteKeyAt
  split_ifs with h1 h2 h3
  · exact absurd rfl (h4 '"' (by rw [h1]; decide))
  · exact absurd rfl (h '"' (by rw [h2]; decide))
  · exact absurd rfl (h '"' (by rw [h3]; decide))
  · rfl

/-- One scan step of `findQuotes` over a position with no match. -/
theorem findQuotes_cons_none {c : Char} {cs : GoStr}
    (hk : quoteKeyAt (c :: cs) = none) :
    findQuotes (c :: cs) = findQuotes cs := by
  show findQuotesAux (cs.length + 1) (c :: cs) = findQuotesAux cs.length cs
  conv_lhs => unfold findQuotesAux
  rw [hk]

/-- The quoted-field scan ignores a quote-free prefix (the body must not
open with a quote in its first four characters). -/
theorem findQuotes_append {b : GoStr} (hb : ∀ x ∈ b.take 4, x ≠ '"') :
    ∀ {p : GoStr}, (∀ x ∈ p, x ≠ '"') →
      findQuotes (p ++ b) = findQuotes b := by
  intro p
  induction p with
  | nil => intro _; rfl
  | cons c p' ih =>
    intro hp
    have hp' : ∀ x ∈ p', x ≠ '"' := fun x hx => hp x (List.mem_cons_of_mem _ hx)
    have hk : quoteKeyAt (c :: (p' ++ b)) = none := by
      apply quoteKeyAt_eq_none
      intro x hx
      rw [List.take_succ_cons] at hx
      rcases List.mem_cons.mp hx with rfl | hx'
      · exact hp x (List.mem_cons_self ..)
      · rw [List.take_append_eq_append_take] at hx'
        rcases List.mem_append.mp hx' with h1 | h2
        · exact hp' x (List.take_subset _ _ h1)
        · refine hb x ?_
          have hmono : b.take (4 - p'.length) = (b.take 4).take (4 - p'.length) := by
            rw [List.take_take]
            congr 1
            omega
          rw [hmono] at h2
          exact List.take_subset _ _ h2
    rw [List.cons_append, findQuotes_cons_none hk]
    exact ih hp'

/-- C7 counterexample: a well-enveloped `nginx` line whose body contains the
fixture tokens but also a later `status=500` token parses with
`Status = "500"`, not the `"200"` the claim predicts for every line whose
body contains the fixture. -/
theorem c7_counterexample :
    (NginxLine.Parse {} nginxCexRaw).2 = none ∧
    (SyslogLine.Parse {} nginxCexRaw).1.Tag = "nginx".data ∧
    (NginxLine.Parse {} nginxCexRaw).1.Status = "500".data ∧
    "500".data ≠ "200".data := by decide

/-- C7: for every line made of a quote-free well-enveloped prefix with tag
`nginx` followed by the fixture body, `NginxLine.Parse` succeeds and yields
`HttpHost`, `Status` and `TotalTime` from the generic pass and
`UserAgentName`, `Uri`, `Referer` from the quoted-field pass over the raw
text. -/
theorem c7_nginx_fixture (p : GoStr) (s : SyslogLine)
    (hq : ∀ x ∈ p, x ≠ '"')
    (h : SyslogLine.Parse {} (p ++ ' ' :: nginxBody) = (s, none))
    (ht : s.Tag = "nginx".data) :
    (NginxLine.Parse {} (p ++ ' ' :: nginxBody)).2 = none ∧
    (NginxLine.Parse {} (p ++ ' ' :: nginxBody)).1.HttpHost = "a.com".data ∧
    (NginxLine.Parse {} (p ++ ' ' :: nginxBody)).1.Status = "200".data ∧
    (NginxLine.Parse {} (p ++ ' ' :: nginxBody)).1.TotalTime = (0.12 : ℚ) ∧
    (NginxLine.Parse {} (p ++ ' ' :: nginxBody)).1.UserAgentName = "Mozilla 5".data ∧
    (NginxLine.Parse {} (p ++ ' ' :: nginxBody)).1.Uri = "/x".data ∧
    (NginxLine.Parse {} (p ++ ' ' :: nginxBody)).1.Referer = "-".data := by
  have h' : SyslogLine.Parse ((({} : NginxLine).syslogLine).getD {})
      (p ++ ' ' :: nginxBody) = (s, none) := h
  have hchar := nginx_parse_char {} (p ++ ' ' :: nginxBody) s h'
  rw [hchar, if_pos (Or.inr ht)]
  have hfields : s.fields = goFields p ++ goFields nginxBody :=
    (SyslogLine.parse_eq_raw h rfl).2.trans (goFields_space_append p nginxBody)
  have hsplit : (p ++ ' ' :: nginxBody) = (p ++ [' ']) ++ nginxBody := by simp
  have hfq : findQuotes (p ++ ' ' :: nginxBody) = findQuotes nginxBody := by
    rw [hsplit]
    refine findQuotes_append (by decide) ?_
    intro x hx
    rcases List.mem_append.mp hx with h1 | h2
    · exact hq x h1
    · rcases List.mem_singleton.mp h2 with rfl
      decide
  rw [hfields, hfq, List.foldl_append]
  rw [show goFields nginxBody =
    ["host=a.com".data, "status=200".data, "total=0.12".data, "ua=\"Mozilla".data,
     "5\"".data, "uri=\"/x\"".data, "ref=\"-\"".data] from by decide]
  rw [show findQuotes nginxBody =
    [("ua".data, "Mozilla 5".data), ("uri".data, "/x".data), ("ref".data, "-".data)]
    from by decide]
  rw [nginx_fold_char]
  rw [show lastVal "method".data
    ["host=a.com".data, "status=200".data, "total=0.12".data, "ua=\"Mozilla".data,
     "5\"".data, "uri=\"/x\"".data, "ref=\"-\"".data] = none from by decide]
  rw [show lastVal "status".data
    ["host=a.com".data, "status=200".data, "total=0.12".data, "ua=\"Mozilla".data,
     "5\"".data, "uri=\"/x\"".data, "ref=\"-\"".data] = some "200".data from by decide]
  rw [show lastVal "host".data
    ["host=a.com".data, "status=200".data, "total=0.12".data, "ua=\"Mozilla".data,
     "5\"".data, "uri=\"/x\"".data, "ref=\"-\"".data] = some "a.com".data from by decide]
  rw [show lastVal "length".data
    ["host=a.com".data, "status=200".data, "total=0.12".data, "ua=\"Mozilla".data,
     "5\"".data, "uri=\"/x\"".data, "ref=\"-\"".data] = none from by decide]
  rw [show lastVal "total".data
    ["host=a.com".data, "status=200".data, "total=0.12".data, "ua=\"Mozilla".data,
     "5\"".data, "uri=\"/x\"".data, "ref=\"-\"".data] = some "0.12".data from by decide]
  rw [show lastVal "unicorn_time".data
    ["host=a.com".data, "status=200".data, "total=0.12".data, "ua=\"Mozilla".data,
     "5\"".data, "uri=\"/x\"".data, "ref=\"-\"".data] = none from by decide]
  refine ⟨rfl, rfl, rfl, ?_, rfl, rfl, rfl⟩
  show mkRat 12 100 = (0.12 : ℚ)
  norm_num [Rat.mkRat_eq_div]

/-- C7 witness at a concrete timestamped envelope. -/
theorem c7_nginx_fixture_witness :
    (NginxLine.Parse {}
      ("2013-06-21T10:12:20.687775+02:00 www1 nginx:".data ++ ' ' :: nginxBody)).2
        = none ∧
    (NginxLine.Parse {}
      ("2013-06-21T10:12:20.687775+02:00 www1 nginx:".data ++ ' ' :: nginxBody)).1.Uri
        = "/x".data :=
  have hc7 := c7_nginx_fixture "2013-06-21T10:12:20.687775+02:00 www1 nginx:".data
    (SyslogLine.Parse {}
      ("2013-06-21T10:12:20.687775+02:00 www1 nginx:".data ++ ' ' :: nginxBody)).1
    (by decide) (by decide) (by decide)
  ⟨hc7.1, hc7.2.2.2.2.2.1⟩

/-- C1 amended witness: a parsed envelope record and a parsed HAProxy record
are left unchanged, with success, by a second `Parse` on different text. -/
theorem c1_amended_second_parse_witness :
    SyslogLine.Parse ((SyslogLine.Parse {} "a b".data).1) "c d e".data =
      ((SyslogLine.Parse {} "a b".data).1, none) ∧
    HAProxyLine.Parse ((HAProxyLine.Parse {} hapRaw1).1) uniRaw2 =
      ((HAProxyLine.Parse {} hapRaw1).1, none) :=
  ⟨c1_amended_second_parse.1 (SyslogLine.Parse {} "a b".data).1 "c d e".data (by decide),
   c1_amended_second_parse.2.2.2 {} hapRaw1 uniRaw2 (HAProxyLine.Parse {} hapRaw1).1
     (by decide)⟩

end Dgtk
